import Mathlib

/-!
Verification of the aggregation/pagination engine of a CMS meetup site.

The development shallowly embeds the zap-analytics hook
(`src/hooks/useZapAnalytics.ts`), the fanout query helper
(`src/lib/queryRelays.ts`) and the scheduled-post delivery worker
(`src/edge-functions/publish-scheduled-posts.js`).

State updates performed inside React `setState` callbacks are modelled as
pure functions from the previous state (plus the fetch outcome) to the next
state; the network is modelled as an oracle (`FetchOutcome`, `SourceOutcome`,
per-relay acceptance functions).  JavaScript number truthiness (`0` is falsy)
is modelled explicitly wherever the source relies on it.
-/

/-- Configuration constants from `ZAP_FETCH_CONFIG` in `useZapAnalytics.ts`. -/
def INITIAL_BATCH_SIZE : Nat := 1000

/-- Minimum batch size when relay limits are hit. -/
def MIN_BATCH_SIZE : Nat := 250

/-- Maximum batch size to prevent timeouts. -/
def MAX_BATCH_SIZE : Nat := 2000

/-- Stop auto-loading after this many consecutive failures. -/
def MAX_CONSECUTIVE_FAILURES : Nat := 3

/-- Local constant inside `loadMoreZaps`: stop after 3 consecutive zero-result batches. -/
def maxConsecutiveZeroResults : Nat := 3

/-- One-hour completion tolerance from `loadMoreZaps` (line 315). -/
def BOUNDARY_TOLERANCE_SECONDS : Int := 3600

/-- A zap receipt event; only the fields the engine inspects (`id` for
deduplication, `created_at` for ordering/filtering) are modelled. -/
structure ZapReceipt where
  id : String
  created_at : Int
deriving DecidableEq, Repr

/-- JavaScript truthiness of a `number | undefined` value: `undefined` and `0`
are falsy, every other integer is truthy. -/
def jsTruthy : Option Int → Bool
  | none => false
  | some u => decide (u ≠ 0)

/-- JavaScript `x || d` for `x : number | undefined` with `d : number`:
yields `d` when `x` is `undefined` or `0`. -/
def natOrDefault : Option Nat → Nat → Nat
  | none, d => d
  | some n, d => if n = 0 then d else n

/-- The `{ since, until }` pair produced by `getDateRange(timeRange, customRange)`
together with the `timeRange === 'custom'` flag the hook consults alongside it.
`since = 0` plays the role of "no lower bound" (JS falsy). -/
structure TimeWindow where
  since : Int
  untilTs : Option Int
  isCustom : Bool
deriving DecidableEq, Repr

/-- Progressive zap loading state (`ZapLoadingState` in `useZapAnalytics.ts`). -/
structure ZapLoadingState where
  receipts : List ZapReceipt
  isLoading : Bool
  isComplete : Bool
  currentBatch : Nat
  totalFetched : Nat
  relayLimit : Option Nat
  error : Option String
  autoLoadEnabled : Bool
  consecutiveFailures : Nat
  consecutiveZeroResults : Nat
  allReceiptsCache : List ZapReceipt
deriving DecidableEq, Repr

/-- The initial state from `useState` in `useProgressiveZapReceipts`. -/
def initialZapState : ZapLoadingState :=
  { receipts := []
    isLoading := false
    isComplete := false
    currentBatch := 0
    totalFetched := 0
    relayLimit := none
    error := none
    autoLoadEnabled := true
    consecutiveFailures := 0
    consecutiveZeroResults := 0
    allReceiptsCache := [] }

/-- `.sort((a, b) => b.created_at - a.created_at)`: sort newest first. -/
def sortByCreatedAtDesc (l : List ZapReceipt) : List ZapReceipt :=
  l.insertionSort (fun a b => a.created_at ≥ b.created_at)

/-- `Math.min(...receipts.map(r => r.created_at))`; only meaningful (and only
used by the source) on non-empty lists. -/
def minCreatedAt : List ZapReceipt → Int
  | [] => 0
  | r :: rs => (rs.map (fun x => x.created_at)).foldl min r.created_at

/-- The time-range filter used both at cache initialization (lines 124-132) and
after each merge (lines 286-294): custom ranges with a truthy `until` filter
both ends inclusively, every other case filters only by `since`. -/
def filterByWindow (l : List ZapReceipt) (w : TimeWindow) : List ZapReceipt :=
  l.filter fun receipt =>
    if w.isCustom && jsTruthy w.untilTs then
      decide (w.since ≤ receipt.created_at) && decide (receipt.created_at ≤ w.untilTs.getD 0)
    else
      decide (w.since ≤ receipt.created_at)

/-- The early-return guards of `loadMoreZaps` (lines 191-203): bail out when
there is no subject, a fetch is in flight, or loading is complete; automatic
calls additionally bail out when auto-load is disabled or either circuit
breaker has tripped. -/
def loadGuard (pubkey : Option String) (isLoadingRef : Bool) (s : ZapLoadingState)
    (isAutomatic : Bool) : Bool :=
  if pubkey.isNone || isLoadingRef || s.isComplete then false
  else if isAutomatic &&
      (!s.autoLoadEnabled ||
        decide (s.consecutiveFailures ≥ MAX_CONSECUTIVE_FAILURES) ||
        decide (s.consecutiveZeroResults ≥ maxConsecutiveZeroResults)) then false
  else true

/-- Pagination `until` computation (lines 215-228): with a non-empty cache the
query walks backward from the oldest cached timestamp minus one second; custom
ranges with a truthy `until` additionally clamp to the window's own bound. -/
def computeUntil (w : TimeWindow) (cache : List ZapReceipt) : Option Int :=
  match cache with
  | [] => w.untilTs
  | _ :: _ =>
    let paginationUntil := minCreatedAt cache - 1
    match w.untilTs with
    | some u =>
      if w.isCustom && decide (u ≠ 0) then some (min paginationUntil u)
      else some paginationUntil
    | none => some paginationUntil

/-- Batch size computation (lines 230-239): detected limit (or the initial
size), capped at the maximum, and further reduced for automatic continuation
batches. -/
def computeBatchSize (relayLimit : Option Nat) (isAutomatic : Bool) (currentBatch : Nat) : Nat :=
  let b1 := natOrDefault relayLimit INITIAL_BATCH_SIZE
  let b2 := min b1 MAX_BATCH_SIZE
  if isAutomatic && decide (currentBatch > 0) then
    min b2 (natOrDefault relayLimit MIN_BATCH_SIZE)
  else b2

/-- The NIP-01 filter object built by `loadMoreZaps` (lines 241-258); the
`since` and `until` fields are only attached when truthy. -/
structure ZapFilter where
  kinds : List Nat
  pTag : String
  limit : Nat
  sinceField : Option Int
  untilField : Option Int
deriving DecidableEq, Repr

/-- Build the query filter exactly as lines 241-258 do. -/
def buildFilter (pubkey : String) (batchSize : Nat) (since : Int)
    (currentUntil : Option Int) : ZapFilter :=
  { kinds := [9735]
    pTag := pubkey
    limit := batchSize
    sinceField := if since > 0 then some since else none
    untilField :=
      match currentUntil with
      | some u => if u ≠ 0 then some u else none
      | none => none }

/-- The `setState` updater of the success path of `loadMoreZaps`
(lines 274-334), as a pure function of the previous state, the validated
receipts, the requested batch size and the active window.  `error := none`
reflects the `error: null` written at cycle start (line 206), which the
success updater never overwrites. -/
def successUpdate (prev : ZapLoadingState) (validReceipts : List ZapReceipt)
    (batchSize : Nat) (w : TimeWindow) : ZapLoadingState :=
  let allReceipts := sortByCreatedAtDesc (prev.allReceiptsCache ++ validReceipts)
  let filteredReceipts := filterByWindow allReceipts w
  let detectedLimit : Option Nat :=
    if validReceipts.length < batchSize && validReceipts.length > 0 then
      some (max validReceipts.length MIN_BATCH_SIZE)
    else prev.relayLimit
  let expectedBatchSize := natOrDefault detectedLimit batchSize
  let isComplete : Bool :=
    if validReceipts.length = 0 then decide (w.since ≠ 0)
    else
      decide (validReceipts.length < expectedBatchSize) ||
        (!w.isCustom &&
          decide (minCreatedAt validReceipts ≤ w.since + BOUNDARY_TOLERANCE_SECONDS))
  { prev with
    receipts := filteredReceipts
    allReceiptsCache := allReceipts
    isLoading := false
    isComplete := isComplete
    currentBatch := prev.currentBatch + 1
    totalFetched := filteredReceipts.length
    relayLimit := detectedLimit
    error := none
    consecutiveFailures := 0
    consecutiveZeroResults :=
      if validReceipts.length = 0 then prev.consecutiveZeroResults + 1 else 0 }

/-- The `setState` updater of the catch branch of `loadMoreZaps`
(lines 360-369). -/
def failureUpdate (prev : ZapLoadingState) (msg : String) : ZapLoadingState :=
  { prev with
    isLoading := false
    error := some msg
    consecutiveFailures := prev.consecutiveFailures + 1
    autoLoadEnabled := decide (prev.consecutiveFailures + 1 < MAX_CONSECUTIVE_FAILURES) }

/-- Network oracle for one fetch cycle: either the fanout query settles with a
list of events, or the whole cycle throws (error/timeout/abort). -/
inductive FetchOutcome where
  | success (events : List ZapReceipt)
  | failure (msg : String)
deriving DecidableEq, Repr

/-- One full `loadMoreZaps(isAutomatic)` cycle as a pure transition: returns
the next state together with the filter of the query issued (`none` when one
of the guards returned early and no query was sent).  `isValid` stands for
`isValidZapReceipt`, an external validator applied to each returned event. -/
def loadMoreZaps (pubkey : Option String) (isLoadingRef : Bool) (w : TimeWindow)
    (isAutomatic : Bool) (isValid : ZapReceipt → Bool) (s : ZapLoadingState)
    (outcome : FetchOutcome) : ZapLoadingState × Option ZapFilter :=
  if loadGuard pubkey isLoadingRef s isAutomatic then
    let currentUntil := computeUntil w s.allReceiptsCache
    let batchSize := computeBatchSize s.relayLimit isAutomatic s.currentBatch
    let filter := buildFilter (pubkey.getD "") batchSize w.since currentUntil
    match outcome with
    | .success events =>
      let validReceipts := sortByCreatedAtDesc (events.filter isValid)
      (successUpdate s validReceipts batchSize w, some filter)
    | .failure msg => (failureUpdate s msg, some filter)
  else (s, none)

/-- Run a sequence of fetch cycles from a state, collecting the filters of the
queries actually issued. -/
def runCycles (pubkey : Option String) (w : TimeWindow) (isAutomatic : Bool)
    (isValid : ZapReceipt → Bool) : ZapLoadingState → List FetchOutcome → List ZapFilter
  | _, [] => []
  | s, o :: os =>
    match loadMoreZaps pubkey false w isAutomatic isValid s o with
    | (s', some f) => f :: runCycles pubkey w isAutomatic isValid s' os
    | (s', none) => runCycles pubkey w isAutomatic isValid s' os

/-- Outcome of one physical sub-query inside `queryWithNip65Fanout`: the
query fulfills with events, rejects (error or timeout), or the relay handle
cannot even be constructed (the `catch` around `nostr.relay(url)` turns this
into an immediately fulfilled empty result). -/
inductive SourceOutcome where
  | ok (events : List ZapReceipt)
  | err
  | badRelay
deriving DecidableEq, Repr

/-- The settled value a sub-query contributes to `Promise.allSettled`:
`none` models a rejected promise. -/
def settledValue : SourceOutcome → Option (List ZapReceipt)
  | .ok events => some events
  | .err => none
  | .badRelay => some []

/-- Events a sub-query contributes after the fulfilled-filter step: a rejected
promise contributes nothing. -/
def sourceContribution (o : SourceOutcome) : List ZapReceipt :=
  (settledValue o).getD []

/-- First-occurrence key order of a JavaScript `Map` built by successive
insertions: keys already seen are skipped. -/
def keySeenOrder (seen : List String) : List String → List String
  | [] => []
  | i :: rest =>
    if i ∈ seen then keySeenOrder seen rest
    else i :: keySeenOrder (i :: seen) rest

/-- The key iteration order of `new Map(evs.map(e => [e.id, e]))`. -/
def firstSeenKeys (l : List String) : List String := keySeenOrder [] l

/-- The value stored under key `i` after all insertions: the last event with
that id (later insertions overwrite earlier ones). -/
def lastEventWithId (evs : List ZapReceipt) (i : String) : Option ZapReceipt :=
  (evs.filter (fun e => e.id == i)).getLast?

/-- `Array.from(new Map(evs.map(e => [e.id, e])).values())`: one event per
distinct id, in first-seen key order, each being the last event carrying
that id. -/
def dedupeById (evs : List ZapReceipt) : List ZapReceipt :=
  (firstSeenKeys (evs.map (fun e => e.id))).filterMap (lastEventWithId evs)

/-- `queryWithNip65Fanout` from `src/lib/queryRelays.ts`: settle the primary
query and one query per NIP-65 relay, keep the fulfilled results, concatenate
and deduplicate by event id.  `Promise.allSettled` never rejects, so the model
is a total function. -/
def queryWithNip65Fanout (primary : SourceOutcome) (nip65 : List SourceOutcome) :
    List ZapReceipt :=
  let results := primary :: nip65
  let allEvents := (results.map sourceContribution).flatten
  dedupeById allEvents

/-- The `signed_event` column of a scheduled post as the worker sees it:
SQL `NULL`, a JSON string that parses to an event, a JSON string that fails
to parse (with the parser's error text), or an already-deserialized object. -/
inductive SignedEventField where
  | nullEv
  | strOk (kind : Nat)
  | strBad (msg : String)
  | objEv (kind : Nat)
deriving DecidableEq, Repr

/-- The `relays` column: either it yields a list of relay URLs, or parsing the
JSON string throws (caught by the outer catch of `processPost`). -/
inductive RelaysField where
  | parsed (urls : List String)
  | malformed (msg : String)
deriving DecidableEq, Repr

/-- A `scheduled_posts` row, restricted to the fields `processPost` inspects. -/
structure ScheduledPost where
  postId : String
  signed_event : SignedEventField
  relays : RelaysField
deriving DecidableEq, Repr

/-- Row status in the `scheduled_posts` table. -/
inductive PostStatus where
  | pending
  | published
  | failed
deriving DecidableEq, Repr

/-- Net effect of `processPost` on one row: the status written back, the
`error_message` written, the `success` flag of the returned result, and how
many relays `publishToRelay` was invoked for. -/
structure ProcessResult where
  status : PostStatus
  errorMessage : Option String
  success : Bool
  relaysContacted : Nat
deriving DecidableEq, Repr

/-- Whether the `signed_event` column survives the null check and JSON parse
(lines 134-151 of `publish-scheduled-posts.js`). -/
def signedEventParses : SignedEventField → Bool
  | .nullEv => false
  | .strBad _ => false
  | .strOk _ => true
  | .objEv _ => true

/-- Number of relays that accepted the event: `publishToRelay` for relay index
`i` resolves when `accepts i` is true and rejects otherwise.  Every wrapped
relay promise fulfills (the per-relay catch returns a failure object), so the
`allSettled` loop counts exactly the accepting relays. -/
def relaySuccessCount (urls : List String) (accepts : Nat → Bool) : Nat :=
  ((List.range urls.length).filter accepts).length

/-- `processPost` from `publish-scheduled-posts.js` (lines 129-226) as a pure
function.  `accepts i` is the outcome of publishing to the i-th relay URL and
`lastErrorMsg` is the message of the last per-relay error (only consulted when
at least one relay failed; `lastError` is non-null exactly when some relay
failed, which for settled promises is equivalent to
`successCount < relayUrls.length`).  The `kind` echoed in the success payload
and the exact relay error text inside messages are network data and are
abstracted by `lastErrorMsg`. -/
def processPost (post : ScheduledPost) (accepts : Nat → Bool) (lastErrorMsg : String) :
    ProcessResult :=
  match post.signed_event with
  | .nullEv =>
    { status := .failed
      errorMessage := some "Signed event is null"
      success := false
      relaysContacted := 0 }
  | .strBad m =>
    { status := .failed
      errorMessage := some ("Failed to parse signed event: " ++ m)
      success := false
      relaysContacted := 0 }
  | _ =>
    match post.relays with
    | .malformed m =>
      { status := .failed
        errorMessage := some ("Processing error: " ++ m)
        success := false
        relaysContacted := 0 }
    | .parsed urls =>
      let n := urls.length
      let k := relaySuccessCount urls accepts
      if k > 0 then
        { status := .published
          errorMessage :=
            if k < n then
              some ("Partially published (" ++ toString k ++ "/" ++ toString n ++
                " relays). Last error: " ++ lastErrorMsg)
            else none
          success := true
          relaysContacted := n }
      else
        { status := .failed
          errorMessage :=
            some ("Failed to publish to any relay. Last error: " ++
              (if n = 0 then "Unknown error" else lastErrorMsg))
          success := false
          relaysContacted := n }

/-- The `timeRange` argument of the hooks: a preset label or `'custom'`. -/
inductive TimeRangeSel where
  | preset (name : String)
  | custom
deriving DecidableEq, Repr

/-- The `customRange` argument: optional `from` and `to` dates, reduced to
their second-precision timestamps. -/
structure CustomDateRange where
  fromTs : Option Int
  toTs : Option Int
deriving DecidableEq, Repr

/-- Modelled from the spec: `presetSpanSeconds` reflects the window spans of
`getDateRange` in `src/lib/zaplytics/utils.ts`, which is not among the
provided sources.  Spec section 8 fixes `7d` (since = now - 7 days) and `30d`;
other presets are not pinned down and default to the 7-day span here. -/
def presetSpanSeconds (name : String) : Int :=
  if name = "30d" then 2592000 else 604800

/-- Modelled from the spec: `getDateRange` of `src/lib/zaplytics/utils.ts` is
not among the provided sources.  Per spec sections 3 and 8, preset windows get
`since = now - span` and no upper bound, while custom windows take both bounds
from the selected dates (`since = 0` standing for an absent bound). -/
def getDateRange (now : Int) (tr : TimeRangeSel) (cr : Option CustomDateRange) : TimeWindow :=
  match tr with
  | .preset name => { since := now - presetSpanSeconds name, untilTs := none, isCustom := false }
  | .custom =>
    match cr with
    | some c => { since := c.fromTs.getD 0, untilTs := c.toTs, isCustom := true }
    | none => { since := 0, untilTs := none, isCustom := true }

/-- `shouldQueryData` from `useZapAnalytics` (line 725): custom ranges only
query once both dates are selected. -/
def shouldQueryData (tr : TimeRangeSel) (cr : Option CustomDateRange) : Bool :=
  if tr = TimeRangeSel.custom then
    match cr with
    | some c => c.fromTs.isSome && c.toTs.isSome
    | none => false
  else true

/-- The time range actually handed to `useProgressiveZapReceipts`
(lines 727-731): falls back to `'7d'` while a custom range is incomplete. -/
def effectiveTimeRange (tr : TimeRangeSel) (cr : Option CustomDateRange) : TimeRangeSel :=
  if shouldQueryData tr cr then tr else .preset "7d"

/-- The custom range actually handed to `useProgressiveZapReceipts`. -/
def effectiveCustomRange (tr : TimeRangeSel) (cr : Option CustomDateRange) :
    Option CustomDateRange :=
  if shouldQueryData tr cr then cr else none

/-- The auto-start decision of the effect at lines 377-444: given the active
window, the global per-subject cache, the current clock and the loading state,
decide whether `loadMoreZaps(true)` gets scheduled. -/
def shouldStartLoading (w : TimeWindow) (userCache : List ZapReceipt) (now : Int)
    (s : ZapLoadingState) : Bool :=
  let oldest := if userCache.isEmpty then 0 else minCreatedAt userCache
  if w.isCustom && (!userCache.isEmpty && decide (oldest ≤ w.since)) then false
  else
    let hasData :=
      if w.isCustom then
        !(userCache.filter fun r =>
          decide (w.since ≤ r.created_at) &&
            decide (r.created_at ≤
              (match w.untilTs with
                | some u => if u ≠ 0 then u else now
                | none => now))).isEmpty
      else !s.receipts.isEmpty
    let isCompleteForRange :=
      if w.isCustom then !userCache.isEmpty && decide (oldest ≤ w.since)
      else s.isComplete
    (!hasData || (hasData && decide (oldest > w.since))) &&
      !s.isLoading && !isCompleteForRange && s.autoLoadEnabled

/-- A parsed zap (`parseZapReceipt` output), restricted to the fields the
scalar analytics consult: the amount and the zapper's pubkey. -/
structure ParsedZap where
  amount : Int
  zapperPubkey : String
deriving DecidableEq, Repr

/-- The scalar analytics computed at lines 855-860 of `useZapAnalytics.ts`. -/
structure AnalyticsScalars where
  totalEarnings : Int
  totalZaps : Nat
  uniqueZappers : Nat
deriving DecidableEq, Repr

/-- The empty/zero analytics result returned for an incomplete custom range
(lines 783-818), restricted to its scalar fields. -/
def emptyAnalytics : AnalyticsScalars :=
  { totalEarnings := 0, totalZaps := 0, uniqueZappers := 0 }

/-- Parse the receipts (`parseZapReceipt` is external, passed as `parse`),
then total amount, zap count, and distinct-zapper count (`new Set(...).size`). -/
def computeAnalyticsScalars (parse : ZapReceipt → Option ParsedZap)
    (receipts : List ZapReceipt) : AnalyticsScalars :=
  let parsedZaps := receipts.filterMap parse
  { totalEarnings := parsedZaps.foldl (fun s z => s + z.amount) 0
    totalZaps := parsedZaps.length
    uniqueZappers := (firstSeenKeys (parsedZaps.map (fun z => z.zapperPubkey))).length }

/-- The branch structure of the `useZapAnalytics` query function
(lines 781-860): an incomplete custom range short-circuits to the empty
result, otherwise the scalars are computed from the current receipts. -/
def zapAnalyticsResult (parse : ZapReceipt → Option ParsedZap) (tr : TimeRangeSel)
    (cr : Option CustomDateRange) (receipts : List ZapReceipt) : AnalyticsScalars :=
  if tr = TimeRangeSel.custom &&
      (match cr with
        | some c => !c.fromTs.isSome || !c.toTs.isSome
        | none => true) then
    emptyAnalytics
  else computeAnalyticsScalars parse receipts

/-- A batch of `n` distinct receipts with ids `"0"`, `"1"`, ... and strictly
decreasing timestamps starting at 1000000. -/
def mkReceipts (n : Nat) : List ZapReceipt :=
  (List.range n).map (fun i => { id := toString i, created_at := 1000000 - (i : Int) })

/-- A custom window wide enough to keep the concrete traces below incomplete. -/
def c1Window : TimeWindow := { since := 1, untilTs := some 2000000, isCustom := true }

/-- State after a first successful manual cycle returning a full 250-receipt
page (the source's silent limit), leaving loading incomplete. -/
def c1State1 : ZapLoadingState :=
  (loadMoreZaps (some "alice") false c1Window false (fun _ => true) initialZapState
    (.success (mkReceipts 250))).1

/-- State after a second successful cycle whose result set overlaps the first
one (it returns the newest receipt again). -/
def c1State2 : ZapLoadingState :=
  (loadMoreZaps (some "alice") false c1Window false (fun _ => true) c1State1
    (.success [{ id := "0", created_at := 1000000 }])).1

/-- A state in which the failure circuit breaker has just tripped. -/
def c6TrippedState : ZapLoadingState :=
  { initialZapState with consecutiveFailures := 3, autoLoadEnabled := false }

/-- A custom window whose `until` is the (falsy) timestamp 0. -/
def c7Window : TimeWindow := { since := 0, untilTs := some 0, isCustom := true }

/-- A receipt later than `c7Window`'s upper bound. -/
def c7Receipt : ZapReceipt := { id := "x", created_at := 5 }

/-- A custom range with only the `from` date selected. -/
def c8CustomRange : CustomDateRange := { fromTs := some 500, toTs := none }

/-- A concrete clock value for the incomplete-custom-range scenario. -/
def c8Now : Int := 10000000

/-- The window the progressive hook actually works with when the custom range
is incomplete: the 7d fallback. -/
def c8Window : TimeWindow :=
  getDateRange c8Now (effectiveTimeRange .custom (some c8CustomRange))
    (effectiveCustomRange .custom (some c8CustomRange))

theorem foldl_min_le_init (l : List Int) (a : Int) : l.foldl min a ≤ a := by
  induction l generalizing a with
  | nil => simp
  | cons x xs ih => exact le_trans (ih (min a x)) (min_le_left a x)

theorem foldl_min_le_mem (l : List Int) (a b : Int) (hb : b ∈ l) : l.foldl min a ≤ b := by
  induction l generalizing a with
  | nil => cases hb
  | cons x xs ih =>
    rcases List.mem_cons.mp hb with h | h
    · subst h
      exact le_trans (foldl_min_le_init xs (min a b)) (min_le_right a b)
    · exact ih (min a x) h

theorem minCreatedAt_le (l : List ZapReceipt) (r : ZapReceipt) (hr : r ∈ l) :
    minCreatedAt l ≤ r.created_at := by
  cases l with
  | nil => cases hr
  | cons x xs =>
    rcases List.mem_cons.mp hr with h | h
    · subst h
      exact foldl_min_le_init _ _
    · exact foldl_min_le_mem _ _ _ (List.mem_map_of_mem _ h)

theorem mem_keySeenOrder (l : List String) (seen : List String) (a : String) :
    a ∈ keySeenOrder seen l ↔ a ∈ l ∧ a ∉ seen := by
  induction l generalizing seen with
  | nil => simp [keySeenOrder]
  | cons i rest ih =>
    by_cases hi : i ∈ seen
    · rw [keySeenOrder, if_pos hi, ih]
      constructor
      · rintro ⟨h1, h2⟩
        exact ⟨List.mem_cons_of_mem i h1, h2⟩
      · rintro ⟨h1, h2⟩
        rcases List.mem_cons.mp h1 with h | h
        · exact absurd (h ▸ hi) h2
        · exact ⟨h, h2⟩
    · rw [keySeenOrder, if_neg hi]
      by_cases hai : a = i
      · subst hai
        simp [hi]
      · rw [List.mem_cons, ih]
        constructor
        · rintro (h | ⟨h1, h2⟩)
          · exact absurd h hai
          · exact ⟨List.mem_cons_of_mem i h1, fun hs => h2 (List.mem_cons_of_mem i hs)⟩
        · rintro ⟨h1, h2⟩
          rcases List.mem_cons.mp h1 with h | h
          · exact absurd h hai
          · refine Or.inr ⟨h, fun hs => ?_⟩
            rcases List.mem_cons.mp hs with h' | h'
            · exact hai h'
            · exact h2 h'

theorem nodup_keySeenOrder (l : List String) (seen : List String) :
    (keySeenOrder seen l).Nodup := by
  induction l generalizing seen with
  | nil => simp [keySeenOrder]
  | cons i rest ih =>
    by_cases hi : i ∈ seen
    · rw [keySeenOrder, if_pos hi]
      exact ih seen
    · rw [keySeenOrder, if_neg hi]
      refine List.nodup_cons.mpr ⟨fun hmem => ?_, ih (i :: seen)⟩
      exact ((mem_keySeenOrder rest (i :: seen) i).mp hmem).2 (List.mem_cons_self i seen)

theorem mem_of_getLast?_eq {α : Type} (l : List α) (a : α) : l.getLast? = some a → a ∈ l := by
  induction l with
  | nil => intro h; simp at h
  | cons x xs ih =>
    intro h
    cases xs with
    | nil =>
      simp only [List.getLast?_singleton, Option.some.injEq] at h
      subst h
      exact List.mem_singleton_self x
    | cons y ys =>
      rw [List.getLast?_cons_cons] at h
      exact List.mem_cons_of_mem _ (ih h)

theorem lastEventWithId_spec (evs : List ZapReceipt) (i : String)
    (h : ∃ e ∈ evs, e.id = i) :
    ∃ e, lastEventWithId evs i = some e ∧ e.id = i := by
  obtain ⟨e, he, hid⟩ := h
  have hmem : e ∈ evs.filter (fun e => e.id == i) :=
    List.mem_filter.mpr ⟨he, by simp [hid]⟩
  have hne : evs.filter (fun e => e.id == i) ≠ [] := by
    intro h0
    rw [h0] at hmem
    cases hmem
  cases hlast : (evs.filter (fun e => e.id == i)).getLast? with
  | none => exact absurd (List.getLast?_eq_none_iff.mp hlast) hne
  | some e' =>
    have he' := mem_of_getLast?_eq _ _ hlast
    have : (e'.id == i) = true := (List.mem_filter.mp he').2
    exact ⟨e', hlast, by simpa using this⟩

theorem filterMap_lastEvent_map_id (evs : List ZapReceipt) (ks : List String)
    (h : ∀ i ∈ ks, ∃ e ∈ evs, e.id = i) :
    (ks.filterMap (lastEventWithId evs)).map (fun e => e.id) = ks := by
  induction ks with
  | nil => simp
  | cons i ks ih =>
    obtain ⟨e, hsome, hid⟩ := lastEventWithId_spec evs i (h i (List.mem_cons_self i ks))
    rw [List.filterMap_cons, hsome, List.map_cons, hid,
      ih (fun j hj => h j (List.mem_cons_of_mem i hj))]

theorem dedupeById_map_id (evs : List ZapReceipt) :
    (dedupeById evs).map (fun e => e.id) = firstSeenKeys (evs.map (fun e => e.id)) := by
  apply filterMap_lastEvent_map_id
  intro i hi
  have hmem : i ∈ evs.map (fun e => e.id) :=
    ((mem_keySeenOrder _ [] i).mp hi).1
  obtain ⟨e, he, hid⟩ := List.mem_map.mp hmem
  exact ⟨e, he, hid⟩

/-- C7 counterexample: for the custom window with `until = 0` (a falsy but
present upper bound) the record with timestamp 5 is kept by the filter even
though the claimed characterization (`r.timestamp ≤ w.until` when `until` is
present) excludes it: the code drops the upper bound whenever `until` is the
falsy number 0. -/
theorem c7_until_zero_counterexample :
    c7Receipt ∈ filterByWindow [c7Receipt] c7Window ∧
      ¬(c7Receipt.created_at ≤ (0 : Int)) ∧ c7Window.untilTs = some 0 ∧
      c7Window.isCustom = true := by decide

/-- C7 amended: a record is in the window-filtered view iff it is in the cache,
its timestamp is at least `since`, and — only when the window is custom and
carries a present nonzero `until` — its timestamp is at most `until`;
non-custom windows, and custom windows whose `until` is absent or the falsy 0,
apply only the `since` bound. -/
theorem c7_filter_membership_amended (l : List ZapReceipt) (w : TimeWindow) (r : ZapReceipt) :
    r ∈ filterByWindow l w ↔
      r ∈ l ∧ w.since ≤ r.created_at ∧
        (∀ u : Int, w.isCustom = true → w.untilTs = some u → u ≠ 0 → r.created_at ≤ u) := by
  unfold filterByWindow
  rw [List.mem_filter]
  cases hcu : w.isCustom with
  | false => simp [hcu, and_assoc]
  | true =>
    cases hu : w.untilTs with
    | none => simp [hcu, hu, jsTruthy, and_assoc]
    | some u =>
      by_cases hz : u = 0
      · subst hz
        simp [hcu, hu, jsTruthy, and_assoc]
      · simp [hcu, hu, jsTruthy, hz, and_assoc]

/-- C6 counterexample: in the tripped state (3 consecutive failures,
auto-load disabled) a manual `loadMoreZaps(false)` does proceed, but when its
fetch fails it increments `consecutiveFailures` to 4 instead of resetting it
to 0 — refuting the unconditional "resets consecutiveFailures to 0". -/
theorem c6_manual_reset_counterexample :
    (loadMoreZaps (some "alice") false { since := 1, untilTs := none, isCustom := false }
        false (fun _ => true) c6TrippedState (.failure "network error")).2.isSome = true ∧
    (loadMoreZaps (some "alice") false { since := 1, untilTs := none, isCustom := false }
        false (fun _ => true) c6TrippedState (.failure "network error")).1.consecutiveFailures
      = 4 := by decide

/-- C6 amended: each failed cycle increments `consecutiveFailures`, and after
the failure `autoLoadEnabled` is false exactly when the new count has reached
`MAX_CONSECUTIVE_FAILURES`; a manual call is guarded only by subject presence,
the in-flight flag and completion (never by the breaker), and a cycle that
succeeds resets `consecutiveFailures` to 0 (a failing manual load increments
it instead). -/
theorem c6_circuit_breaker_amended :
    (∀ (s : ZapLoadingState) (msg : String),
      (failureUpdate s msg).consecutiveFailures = s.consecutiveFailures + 1 ∧
        ((failureUpdate s msg).autoLoadEnabled = false ↔
          MAX_CONSECUTIVE_FAILURES ≤ s.consecutiveFailures + 1)) ∧
    (∀ (pk : Option String) (lref : Bool) (s : ZapLoadingState),
      loadGuard pk lref s false = (pk.isSome && !lref && !s.isComplete)) ∧
    (∀ (prev : ZapLoadingState) (valid : List ZapReceipt) (bs : Nat) (w : TimeWindow),
      (successUpdate prev valid bs w).consecutiveFailures = 0) := by
  refine ⟨fun s msg => ⟨rfl, ?_⟩, fun pk lref s => ?_, fun prev valid bs w => rfl⟩
  · simp [failureUpdate, MAX_CONSECUTIVE_FAILURES, Nat.not_lt]
  · cases pk <;> cases lref <;> cases hc : s.isComplete <;>
      simp [loadGuard, hc]

/-- C10: a scheduled post whose `signed_event` is SQL null or an unparseable
JSON string is marked failed with a descriptive error message, and no relay
connection is opened for it. -/
theorem c10_unparseable_event (post : ScheduledPost) (accepts : Nat → Bool) (lastErr : String)
    (h : post.signed_event = SignedEventField.nullEv ∨
      ∃ m, post.signed_event = SignedEventField.strBad m) :
    (processPost post accepts lastErr).status = PostStatus.failed ∧
    (processPost post accepts lastErr).relaysContacted = 0 ∧
    (processPost post accepts lastErr).errorMessage ≠ none ∧
    (post.signed_event = SignedEventField.nullEv →
      (processPost post accepts lastErr).errorMessage = some "Signed event is null") ∧
    (∀ m, post.signed_event = SignedEventField.strBad m →
      (processPost post accepts lastErr).errorMessage
        = some ("Failed to parse signed event: " ++ m)) := by
  obtain ⟨pid, se, rel⟩ := post
  rcases h with h | ⟨m, h⟩ <;>
    · simp only at h
      subst h
      simp [processPost]

/-- C10 witness: concrete null-event post. -/
theorem c10_unparseable_event_witness :
    (processPost { postId := "p", signed_event := .nullEv, relays := .parsed ["wss://r"] }
        (fun _ => true) "e").status = PostStatus.failed :=
  (c10_unparseable_event _ _ _ (Or.inl rfl)).1

/-- C4: the fanout query always produces (it is total: `Promise.allSettled`
never rejects) the union of the fulfilled sub-queries' events, deduplicated by
event id — rejected sub-queries and unconstructible relays contribute nothing;
and in the concrete 3-source scenario with one throwing source and two
disjoint successful ones, the result is exactly the union of the two. -/
theorem c4_fanout_partial_failure :
    (∀ (primary : SourceOutcome) (nip65 : List SourceOutcome),
      ((queryWithNip65Fanout primary nip65).map (fun e => e.id)).Nodup ∧
        ∀ i : String,
          i ∈ (queryWithNip65Fanout primary nip65).map (fun e => e.id) ↔
            ∃ o ∈ primary :: nip65, ∃ e ∈ sourceContribution o, e.id = i) ∧
    queryWithNip65Fanout (.ok [⟨"a", 1⟩, ⟨"b", 2⟩]) [.err, .ok [⟨"c", 3⟩]]
      = [⟨"a", 1⟩, ⟨"b", 2⟩, ⟨"c", 3⟩] := by
  refine ⟨fun primary nip65 => ?_, by decide⟩
  have hq : queryWithNip65Fanout primary nip65
      = dedupeById (((primary :: nip65).map sourceContribution).flatten) := rfl
  constructor
  · rw [hq, dedupeById_map_id]
    exact nodup_keySeenOrder _ _
  · intro i
    rw [hq, dedupeById_map_id, firstSeenKeys, mem_keySeenOrder]
    simp only [List.mem_map, List.mem_flatten, List.not_mem_nil, not_false_iff, and_true]
    constructor
    · rintro ⟨e, ⟨s, ⟨⟨o, ho, rfl⟩, he⟩⟩, hid⟩
      exact ⟨o, ho, e, he, hid⟩
    · rintro ⟨o, ho, e, he, hid⟩
      exact ⟨e, ⟨sourceContribution o, ⟨⟨o, ho, rfl⟩, he⟩⟩, hid⟩

/-- C2: after a successful fetch cycle, `isComplete` is true iff the cycle
returned zero valid records with a truthy `since` bound, or a non-zero count
strictly below the effective batch size (the post-cycle detected limit when
one exists, else the requested size), or — for non-custom windows — the
oldest returned record lies within one hour of `since`; and a zero-result
cycle increments the consecutive-zero-result counter (a non-zero one resets
it). -/
theorem c2_completion_rule (prev : ZapLoadingState) (valid : List ZapReceipt)
    (bs : Nat) (w : TimeWindow) :
    ((successUpdate prev valid bs w).isComplete = true ↔
      ((valid.length = 0 ∧ w.since ≠ 0) ∨
        (valid.length ≠ 0 ∧
          (valid.length < natOrDefault (successUpdate prev valid bs w).relayLimit bs ∨
            (w.isCustom = false ∧
              minCreatedAt valid ≤ w.since + BOUNDARY_TOLERANCE_SECONDS))))) ∧
    (successUpdate prev valid bs w).consecutiveZeroResults
      = (if valid.length = 0 then prev.consecutiveZeroResults + 1 else 0) := by
  constructor
  · simp only [successUpdate]
    by_cases h0 : valid.length = 0
    · simp [h0]
    · simp only [h0, if_neg, if_false, Bool.or_eq_true, Bool.and_eq_true,
        decide_eq_true_eq, Bool.not_eq_true', ne_eq, not_false_iff, true_and, false_and,
        false_or]
  · simp [successUpdate]

theorem relaySuccessCount_pos_iff (urls : List String) (accepts : Nat → Bool) :
    0 < relaySuccessCount urls accepts ↔
      ∃ i, i < urls.length ∧ accepts i = true := by
  unfold relaySuccessCount
  rw [List.length_pos]
  constructor
  · intro h
    obtain ⟨i, hi⟩ := List.exists_mem_of_ne_nil _ h
    have := List.mem_filter.mp hi
    exact ⟨i, List.mem_range.mp this.1, this.2⟩
  · rintro ⟨i, hi, ha⟩
    intro hnil
    rw [List.filter_eq_nil_iff] at hnil
    exact hnil i (List.mem_range.mpr hi) (by simp [ha])

theorem relaySuccessCount_le (urls : List String) (accepts : Nat → Bool) :
    relaySuccessCount urls accepts ≤ urls.length := by
  unfold relaySuccessCount
  calc ((List.range urls.length).filter accepts).length
      ≤ (List.range urls.length).length := List.length_filter_le _ _
    _ = urls.length := List.length_range _

theorem relaySuccessCount_lt_iff (urls : List String) (accepts : Nat → Bool) :
    relaySuccessCount urls accepts < urls.length ↔
      ∃ i, i < urls.length ∧ accepts i = false := by
  constructor
  · intro h
    by_contra hno
    push_neg at hno
    have hall : ∀ a ∈ List.range urls.length, accepts a := by
      intro a ha
      have := hno a (List.mem_range.mp ha)
      simp only [ne_eq, Bool.not_eq_false] at this
      exact this
    have : relaySuccessCount urls accepts = urls.length := by
      unfold relaySuccessCount
      rw [List.filter_eq_self.mpr hall, List.length_range]
    omega
  · rintro ⟨i, hi, ha⟩
    refine lt_of_le_of_ne (relaySuccessCount_le urls accepts) ?_
    intro heq
    unfold relaySuccessCount at heq
    have hsub : (List.range urls.length).filter accepts = List.range urls.length :=
      List.Sublist.eq_of_length (List.filter_sublist _)
        (by rw [heq, List.length_range])
    have : i ∈ (List.range urls.length).filter accepts := by
      rw [hsub]
      exact List.mem_range.mpr hi
    have := (List.mem_filter.mp this).2
    rw [ha] at this
    cases this

/-- C9: for a scheduled post whose signed event and relay list both parse, the
row is marked published iff at least one target relay accepted the event
(partial failure still recorded in the error message but counted as success),
and marked failed when every target relay rejected or errored. -/
theorem c9_publish_iff (post : ScheduledPost) (accepts : Nat → Bool) (lastErr : String)
    (urls : List String)
    (hse : signedEventParses post.signed_event = true)
    (hr : post.relays = RelaysField.parsed urls) :
    ((processPost post accepts lastErr).status = PostStatus.published ↔
      ∃ i, i < urls.length ∧ accepts i = true) ∧
    ((∀ i, i < urls.length → accepts i = false) →
      (processPost post accepts lastErr).status = PostStatus.failed) ∧
    ((processPost post accepts lastErr).success = true ↔
      (processPost post accepts lastErr).status = PostStatus.published) ∧
    ((processPost post accepts lastErr).status = PostStatus.published →
      (∃ i, i < urls.length ∧ accepts i = false) →
      (processPost post accepts lastErr).errorMessage ≠ none) := by
  obtain ⟨pid, se, rel⟩ := post
  simp only at hr hse
  subst hr
  have hmain :
      processPost { postId := pid, signed_event := se, relays := .parsed urls } accepts lastErr
        = (if relaySuccessCount urls accepts > 0 then
            { status := .published
              errorMessage :=
                if relaySuccessCount urls accepts < urls.length then
                  some ("Partially published (" ++ toString (relaySuccessCount urls accepts)
                    ++ "/" ++ toString urls.length ++ " relays). Last error: " ++ lastErr)
                else none
              success := true
              relaysContacted := urls.length }
          else
            { status := .failed
              errorMessage :=
                some ("Failed to publish to any relay. Last error: " ++
                  (if urls.length = 0 then "Unknown error" else lastErr))
              success := false
              relaysContacted := urls.length }) := by
    cases se with
    | nullEv => simp [signedEventParses] at hse
    | strBad m => simp [signedEventParses] at hse
    | strOk k => rfl
    | objEv k => rfl
  rw [hmain]
  by_cases hk : relaySuccessCount urls accepts > 0
  · rw [if_pos hk]
    refine ⟨?_, ?_, by simp, ?_⟩
    · simp only [true_iff]
      exact (relaySuccessCount_pos_iff urls accepts).mp hk
    · intro hall
      obtain ⟨i, hi, ha⟩ := (relaySuccessCount_pos_iff urls accepts).mp hk
      rw [hall i hi] at ha
      cases ha
    · intro _ hfail
      have hlt := (relaySuccessCount_lt_iff urls accepts).mpr hfail
      simp [hlt]
  · rw [if_neg hk]
    refine ⟨?_, fun _ => rfl, by simp, fun h => absurd h (by simp)⟩
    constructor
    · intro h
      simp at h
    · intro hex
      exact absurd ((relaySuccessCount_pos_iff urls accepts).mpr hex) hk

/-- C9 witness: two relays, the first accepts, the second rejects. -/
theorem c9_publish_iff_witness :
    (processPost
      { postId := "p1"
        signed_event := SignedEventField.strOk 1
        relays := RelaysField.parsed ["wss://a", "wss://b"] }
      (fun i => decide (i = 0)) "rate limited").status = PostStatus.published :=
  (c9_publish_iff
    { postId := "p1"
      signed_event := SignedEventField.strOk 1
      relays := RelaysField.parsed ["wss://a", "wss://b"] }
    (fun i => decide (i = 0)) "rate limited" ["wss://a", "wss://b"] rfl rfl).1.mpr
    ⟨0, by decide, by decide⟩

/-- C5 counterexample: for a custom window whose `until` is the present but
falsy timestamp 0, the code (line 223 truthiness check) skips the clamp and
requests `oldest - 1` unclamped, while the claimed unconditional
`min(oldest - 1, until)` would give 0 — so the frozen claim is false at this
input. -/
theorem c5_until_zero_clamp_counterexample :
    computeUntil { since := 0, untilTs := some 0, isCustom := true }
        [{ id := "a", created_at := 10 }]
      = some (minCreatedAt [({ id := "a", created_at := 10 } : ZapReceipt)] - 1) ∧
    computeUntil { since := 0, untilTs := some 0, isCustom := true }
        [{ id := "a", created_at := 10 }]
      ≠ some (min (minCreatedAt [({ id := "a", created_at := 10 } : ZapReceipt)] - 1) 0) := by
  decide

/-- C5 amended: whenever a fetch cycle starts with a non-empty per-subject
cache, the computed `until` is the oldest cached timestamp minus one second,
regardless of the active display window; for custom windows the clamp to the
window's own `until` via `min` applies only when that bound is present and
nonzero (JS truthiness), and a custom window whose `until` is absent or the
falsy 0 gets the unclamped value; consequently every value it requests lies
strictly below every cached timestamp, so a range already covered by the
cache is never re-requested. -/
theorem c5_pagination_until (w : TimeWindow) (cache : List ZapReceipt) (h : cache ≠ []) :
    ((w.isCustom && jsTruthy w.untilTs) = false →
      computeUntil w cache = some (minCreatedAt cache - 1)) ∧
    (∀ u : Int, w.isCustom = true → w.untilTs = some u → u ≠ 0 →
      computeUntil w cache = some (min (minCreatedAt cache - 1) u)) ∧
    (∀ v : Int, computeUntil w cache = some v → ∀ r ∈ cache, v < r.created_at) := by
  obtain ⟨x, xs, rfl⟩ : ∃ x xs, cache = x :: xs := by
    cases cache with
    | nil => exact absurd rfl h
    | cons x xs => exact ⟨x, xs, rfl⟩
  refine ⟨?_, ?_, ?_⟩
  · intro hfalse
    simp only [computeUntil]
    cases hu : w.untilTs with
    | none => simp
    | some u =>
      rw [hu] at hfalse
      simp only [jsTruthy] at hfalse
      show (if (w.isCustom && decide (u ≠ 0)) = true
          then some (min (minCreatedAt (x :: xs) - 1) u)
          else some (minCreatedAt (x :: xs) - 1)) = some (minCreatedAt (x :: xs) - 1)
      rw [if_neg (by rw [hfalse]; simp)]
  · intro u hc hu hz
    simp only [computeUntil]
    rw [hu]
    show (if (w.isCustom && decide (u ≠ 0)) = true
        then some (min (minCreatedAt (x :: xs) - 1) u)
        else some (minCreatedAt (x :: xs) - 1)) = some (min (minCreatedAt (x :: xs) - 1) u)
    rw [if_pos (by simp [hc, hz])]
  · intro v hv r hr
    have hmin : minCreatedAt (x :: xs) ≤ r.created_at := minCreatedAt_le _ _ hr
    simp only [computeUntil] at hv
    split at hv
    · split at hv
      · simp only [Option.some.injEq] at hv
        have hle : v ≤ minCreatedAt (x :: xs) - 1 := by
          rw [← hv]
          exact min_le_left _ _
        omega
      · simp only [Option.some.injEq] at hv
        omega
    · simp only [Option.some.injEq] at hv
      omega

/-- C5 witness: a custom window with bound 5 over a two-receipt cache. -/
theorem c5_pagination_until_witness :
    computeUntil { since := 0, untilTs := some 5, isCustom := true }
        [{ id := "a", created_at := 10 }, { id := "b", created_at := 20 }]
      = some (min
          (minCreatedAt [{ id := "a", created_at := 10 }, { id := "b", created_at := 20 }] - 1)
          5) :=
  (c5_pagination_until { since := 0, untilTs := some 5, isCustom := true }
    [{ id := "a", created_at := 10 }, { id := "b", created_at := 20 }]
    (by decide)).2.1 5 rfl rfl (by decide)

theorem computeBatchSize_le (L : Nat) (hL : MIN_BATCH_SIZE ≤ L) (auto : Bool) (cb : Nat) :
    computeBatchSize (some L) auto cb ≤ L ∧
      computeBatchSize (some L) auto cb ≤ MAX_BATCH_SIZE := by
  have hL0 : ¬(L = 0) := by
    intro h0
    rw [h0] at hL
    exact absurd hL (by decide)
  simp only [computeBatchSize, natOrDefault, if_neg hL0]
  split
  · constructor
    · exact le_trans (min_le_right _ _) (le_refl L)
    · exact le_trans (min_le_left _ _) (min_le_right _ _)
  · exact ⟨min_le_left _ _, min_le_right _ _⟩

theorem successUpdate_relayLimit_bound (prev : ZapLoadingState) (valid : List ZapReceipt)
    (bs : Nat) (w : TimeWindow) (L : Nat) (hprev : prev.relayLimit = some L)
    (hmin : MIN_BATCH_SIZE ≤ L) (hbs : bs ≤ L) :
    ∃ L', (successUpdate prev valid bs w).relayLimit = some L' ∧
      MIN_BATCH_SIZE ≤ L' ∧ L' ≤ L := by
  simp only [successUpdate]
  by_cases hc : (decide (valid.length < bs) && decide (valid.length > 0)) = true
  · simp only [hc, if_pos]
    refine ⟨max valid.length MIN_BATCH_SIZE, rfl, le_max_right _ _, ?_⟩
    simp only [Bool.and_eq_true, decide_eq_true_eq] at hc
    exact max_le (le_trans (le_of_lt hc.1) hbs) hmin
  · simp only [hc, if_neg, if_false]
    exact ⟨L, hprev, hmin, le_refl L⟩

theorem loadMoreZaps_relayLimit_invariant (pk : Option String) (lref : Bool) (w : TimeWindow)
    (auto : Bool) (isValid : ZapReceipt → Bool) (s : ZapLoadingState) (o : FetchOutcome)
    (L : Nat) (hs : s.relayLimit = some L) (hmin : MIN_BATCH_SIZE ≤ L) :
    (∃ L', (loadMoreZaps pk lref w auto isValid s o).1.relayLimit = some L' ∧
      MIN_BATCH_SIZE ≤ L' ∧ L' ≤ L) ∧
    (∀ f, (loadMoreZaps pk lref w auto isValid s o).2 = some f →
      f.limit ≤ L ∧ f.limit ≤ MAX_BATCH_SIZE) := by
  unfold loadMoreZaps
  by_cases hg : loadGuard pk lref s auto = true
  · rw [if_pos hg]
    have hbs := computeBatchSize_le L hmin auto s.currentBatch
    rw [hs]
    cases o with
    | success events =>
      refine ⟨?_, ?_⟩
      · exact successUpdate_relayLimit_bound s _ _ w L hs hmin hbs.1
      · intro f hf
        simp only [Option.some.injEq] at hf
        rw [← hf]
        exact hbs
    | failure msg =>
      refine ⟨⟨L, hs, hmin, le_refl L⟩, ?_⟩
      intro f hf
      simp only [Option.some.injEq] at hf
      rw [← hf]
      exact hbs
  · rw [if_neg hg]
    exact ⟨⟨L, hs, hmin, le_refl L⟩, fun f hf => by cases hf⟩

theorem runCycles_limit_bound (pk : Option String) (w : TimeWindow) (auto : Bool)
    (isValid : ZapReceipt → Bool) (L0 : Nat) (outs : List FetchOutcome) :
    ∀ (s : ZapLoadingState) (L : Nat), s.relayLimit = some L →
      MIN_BATCH_SIZE ≤ L → L ≤ L0 →
      ∀ f ∈ runCycles pk w auto isValid s outs, f.limit ≤ L0 ∧ f.limit ≤ MAX_BATCH_SIZE := by
  induction outs with
  | nil =>
    intro s L _ _ _ f hf
    simp [runCycles] at hf
  | cons o os ih =>
    intro s L hs hmin hle f hf
    obtain ⟨⟨L', hL', hmin', hle'⟩, hfil⟩ :=
      loadMoreZaps_relayLimit_invariant pk false w auto isValid s o L hs hmin
    rw [runCycles] at hf
    cases hstep : loadMoreZaps pk false w auto isValid s o with
    | mk s' f? =>
      rw [hstep] at hf hL' hfil
      cases f? with
      | some f0 =>
        simp only at hf hL' hfil
        rcases List.mem_cons.mp hf with hEq | hmem
        · obtain ⟨h1, h2⟩ := hfil f0 rfl
          rw [hEq]
          exact ⟨le_trans h1 hle, h2⟩
        · exact ih s' L' hL' hmin' (le_trans hle' hle) f hmem
      | none =>
        simp only at hf hL'
        exact ih s' L' hL' hmin' (le_trans hle' hle) f hf

/-- C3: a cycle whose non-zero valid-record count is strictly below the
requested batch size records the detected limit `max(count, MIN_BATCH_SIZE)`;
and once a limit of at least `MIN_BATCH_SIZE` is recorded (every recorded
limit is), every batch size requested across any subsequent sequence of
cycles is at most that limit and at most `MAX_BATCH_SIZE`. -/
theorem c3_limit_detection_and_clamp :
    (∀ (prev : ZapLoadingState) (valid : List ZapReceipt) (bs : Nat) (w : TimeWindow),
      valid.length ≠ 0 → valid.length < bs →
      (successUpdate prev valid bs w).relayLimit = some (max valid.length MIN_BATCH_SIZE)) ∧
    (∀ (pk : Option String) (w : TimeWindow) (auto : Bool) (isValid : ZapReceipt → Bool)
      (s : ZapLoadingState) (L : Nat) (outs : List FetchOutcome),
      s.relayLimit = some L → MIN_BATCH_SIZE ≤ L →
      ∀ f ∈ runCycles pk w auto isValid s outs,
        f.limit ≤ L ∧ f.limit ≤ MAX_BATCH_SIZE) := by
  constructor
  · intro prev valid bs w h0 hlt
    simp only [successUpdate]
    rw [if_pos (by simp [hlt, Nat.pos_of_ne_zero h0])]
  · intro pk w auto isValid s L outs hs hmin f hf
    exact runCycles_limit_bound pk w auto isValid L outs s L hs hmin (le_refl L) f hf

/-- C3 witness: a 100-receipt page against a requested size of 1000 detects
the limit `max(100, 250)`; from a state with detected limit 250 a manual
zero-result cycle requests a batch of at most 250 and at most 2000. -/
theorem c3_limit_detection_and_clamp_witness :
    (successUpdate initialZapState (mkReceipts 100) 1000
        { since := 0, untilTs := none, isCustom := false }).relayLimit
      = some (max (mkReceipts 100).length MIN_BATCH_SIZE) ∧
    ∀ f ∈ runCycles (some "alice") { since := 1, untilTs := none, isCustom := false }
        false (fun _ => true) { initialZapState with relayLimit := some 250 }
        [FetchOutcome.success []],
      f.limit ≤ 250 ∧ f.limit ≤ MAX_BATCH_SIZE :=
  ⟨c3_limit_detection_and_clamp.1 initialZapState (mkReceipts 100) 1000
      { since := 0, untilTs := none, isCustom := false } (by decide) (by decide),
    fun f hf => c3_limit_detection_and_clamp.2 (some "alice")
      { since := 1, untilTs := none, isCustom := false } false (fun _ => true)
      { initialZapState with relayLimit := some 250 } 250
      [FetchOutcome.success []] rfl (by decide) f hf⟩

set_option maxRecDepth 40000 in
set_option maxHeartbeats 4000000 in
/-- C1 counterexample: a reachable two-cycle trace (first cycle returns a full
250-receipt page against the detected limit, leaving `isComplete = false`;
second cycle's result set overlaps the first by one receipt) leaves the
per-subject cache holding id "0" twice — the merge at line 276 appends without
deduplicating, so overlapping fetch cycles violate "each distinct id exactly
once". -/
theorem c1_overlap_duplicates_counterexample :
    c1State1.isComplete = false ∧
    (loadMoreZaps (some "alice") false c1Window false (fun _ => true) c1State1
        (.success [{ id := "0", created_at := 1000000 }])).2.isSome = true ∧
    (c1State2.allReceiptsCache.map (fun e => e.id)).count "0" = 2 := by decide

/-- C1 amended: the merge is a plain append-and-resort with no deduplication;
the cache holds each distinct id exactly once only as long as every cycle's
valid result set is id-disjoint from the cache (which holds when sources
honor the `until = oldest - 1` bound, and fails for overlapping pages). -/
theorem c1_merge_dedup_amended (prev : ZapLoadingState) (valid : List ZapReceipt)
    (bs : Nat) (w : TimeWindow)
    (hc : (prev.allReceiptsCache.map (fun e => e.id)).Nodup)
    (hv : (valid.map (fun e => e.id)).Nodup)
    (hd : ∀ i, i ∈ valid.map (fun e => e.id) →
      i ∉ prev.allReceiptsCache.map (fun e => e.id)) :
    ((successUpdate prev valid bs w).allReceiptsCache.map (fun e => e.id)).Nodup := by
  have hcache : (successUpdate prev valid bs w).allReceiptsCache
      = sortByCreatedAtDesc (prev.allReceiptsCache ++ valid) := rfl
  rw [hcache]
  have hperm : List.Perm (sortByCreatedAtDesc (prev.allReceiptsCache ++ valid))
      (prev.allReceiptsCache ++ valid) := List.perm_insertionSort _ _
  refine ((hperm.map (fun e => e.id)).nodup_iff).mpr ?_
  rw [List.map_append]
  exact List.nodup_append.mpr ⟨hc, hv, fun a ha hb => hd a hb ha⟩

/-- C1 witness: merging a single fresh receipt into the empty cache keeps the
id list duplicate-free. -/
theorem c1_merge_dedup_witness :
    (((successUpdate initialZapState [{ id := "a", created_at := 1 }] 1000
        { since := 0, untilTs := none, isCustom := false }).allReceiptsCache).map
      (fun e => e.id)).Nodup :=
  c1_merge_dedup_amended initialZapState [{ id := "a", created_at := 1 }] 1000
    { since := 0, untilTs := none, isCustom := false }
    (by decide) (by decide) (fun i _ hi => List.not_mem_nil i hi)

/-- C8 counterexample: with a subject selected and a custom window missing its
`to` date, the hook falls back to the 7d preset window, the auto-start effect
fires, and a query (limit 1000) is issued — contradicting "issues no query
against any source" for this configuration error. -/
theorem c8_fallback_query_counterexample :
    shouldQueryData TimeRangeSel.custom (some c8CustomRange) = false ∧
    effectiveTimeRange TimeRangeSel.custom (some c8CustomRange) = TimeRangeSel.preset "7d" ∧
    shouldStartLoading c8Window [] c8Now initialZapState = true ∧
    (loadMoreZaps (some "alice") false c8Window true (fun _ => true) initialZapState
        (.success [])).2
      = some (buildFilter "alice" 1000 c8Window.since none) := by decide

/-- C8 amended: with no subject selected, `loadMoreZaps` returns unchanged and
issues no query, and the analytics scalars over the (necessarily empty)
receipt set are zero; with an incomplete custom window the hook returns the
empty/zero analytics result — but it falls back to the 7d window for loading,
so "no query at all" holds only for the no-subject case. -/
theorem c8_config_error_amended :
    (∀ (lref : Bool) (w : TimeWindow) (auto : Bool) (isValid : ZapReceipt → Bool)
      (s : ZapLoadingState) (o : FetchOutcome),
      loadMoreZaps none lref w auto isValid s o = (s, none)) ∧
    (∀ (parse : ZapReceipt → Option ParsedZap) (cr : Option CustomDateRange)
      (receipts : List ZapReceipt),
      (cr = none ∨ ∃ c, cr = some c ∧ (c.fromTs = none ∨ c.toTs = none)) →
      zapAnalyticsResult parse TimeRangeSel.custom cr receipts = emptyAnalytics) ∧
    (∀ parse : ZapReceipt → Option ParsedZap,
      computeAnalyticsScalars parse [] = emptyAnalytics) := by
  refine ⟨?_, ?_, ?_⟩
  · intro lref w auto isValid s o
    simp [loadMoreZaps, loadGuard]
  · intro parse cr receipts hcr
    rcases hcr with rfl | ⟨c, rfl, hc⟩
    · simp [zapAnalyticsResult]
    · rcases hc with hfrom | hto
      · simp [zapAnalyticsResult, hfrom]
      · simp [zapAnalyticsResult, hto]
  · intro parse
    simp [computeAnalyticsScalars, emptyAnalytics, firstSeenKeys, keySeenOrder]

/-- C8 witness: the incomplete custom range returns the empty analytics. -/
theorem c8_config_error_witness :
    zapAnalyticsResult (fun _ => none) TimeRangeSel.custom (some c8CustomRange) []
      = emptyAnalytics :=
  c8_config_error_amended.2.1 (fun _ => none) (some c8CustomRange) []
    (Or.inr ⟨c8CustomRange, rfl, Or.inr rfl⟩)
